import Mathlib

/-!
Verification of the daily contact-view quota subsystem of the dashboard
application (src/lib/contact-view-limit.ts, src/app/api/contacts/[id]/route.ts,
and the variant of getOrCreateViewLimit emitted by setup.sh).

The embedding models JavaScript numbers as integers extended with NaN
(results of parseInt), JavaScript Date values at the level of the UTC
component accessors actually used by the source, and the Prisma table
contactViewLimit as a list of rows with storage-level primitives
(findUnique, create with the unique (userId, date) constraint, and the
atomic upsert). Bookkeeping timestamps (createdAt, updatedAt) are not part
of the model: the specification lists them as bookkeeping not used in any
decision logic.
-/

/-- A JavaScript number as produced by parseInt with radix 10: either NaN or
an integer. -/
inductive JSNum where
  | nan : JSNum
  | int : Int → JSNum
deriving DecidableEq, Repr

/-- JavaScript parseInt(s, 10): skip leading whitespace, read an optional
sign, then the longest prefix of decimal digits; NaN when that prefix is
empty. -/
def parseIntJS (s : String) : JSNum :=
  let cs := s.data.dropWhile (fun c => c = ' ' ∨ c = '\t' ∨ c = '\n' ∨ c = '\r')
  let signAndRest : Int × List Char :=
    match cs with
    | '-' :: r => (-1, r)
    | '+' :: r => (1, r)
    | r => (1, r)
  let ds := signAndRest.2.takeWhile Char.isDigit
  if ds.isEmpty then JSNum.nan
  else JSNum.int (signAndRest.1 * (ds.foldl (fun a c => a * 10 + (c.toNat - '0'.toNat)) 0 : Nat))

/-- The JavaScript expression (env.X or-else d) on an optional string: an
absent variable and the empty string are both falsy, so the default applies
to them and to nothing else. -/
def jsOrDefault (env : Option String) (d : String) : String :=
  match env with
  | none => d
  | some s => if s = "" then d else s

/-- DAILY_LIMIT from src/lib/contact-view-limit.ts: parseInt of the
DAILY_CONTACT_VIEW_LIMIT environment variable with fallback string "50". -/
def DAILY_LIMIT (env : Option String) : JSNum :=
  parseIntJS (jsOrDefault env "50")

/-- The JavaScript comparison a greater-or-equal b where b may be NaN: any
comparison with NaN is false. -/
def jsGe (a : Int) (b : JSNum) : Bool :=
  match b with
  | JSNum.nan => false
  | JSNum.int n => a ≥ n

/-- JavaScript subtraction limit - used where the limit may be NaN. -/
def jsSub (a : JSNum) (b : Int) : JSNum :=
  match a with
  | JSNum.nan => JSNum.nan
  | JSNum.int n => JSNum.int (n - b)

/-- JavaScript Math.max(0, x) where x may be NaN (Math.max with a NaN
argument returns NaN). -/
def jsMax0 (a : JSNum) : JSNum :=
  match a with
  | JSNum.nan => JSNum.nan
  | JSNum.int n => JSNum.int (max 0 n)

/-- A JavaScript Date at the level of the accessors the source uses: the UTC
calendar components, the UTC time of day, and the ambient local timezone
offset in minutes (which the local, non-UTC accessors would consult; the
source never reads it). -/
structure JSDate where
  year : Int
  month : Nat
  day : Nat
  hour : Nat
  minute : Nat
  second : Nat
  ms : Nat
  tzOffsetMinutes : Int
deriving DecidableEq, Repr

/-- Date.prototype.getUTCFullYear. -/
def getUTCFullYear (d : JSDate) : Int := d.year

/-- Date.prototype.getUTCMonth (0 to 11). -/
def getUTCMonth (d : JSDate) : Nat := d.month

/-- Date.prototype.getUTCDate (day of month). -/
def getUTCDate (d : JSDate) : Nat := d.day

/-- new Date(Date.UTC(y, m, d)): the UTC-midnight instant of the given UTC
calendar date; every time-of-day component is zero and no local offset is
involved. -/
def dateUTC (y : Int) (m : Nat) (d : Nat) : JSDate :=
  ⟨y, m, d, 0, 0, 0, 0, 0⟩

/-- getStartOfToday from src/lib/contact-view-limit.ts: rebuild the current
instant from its UTC calendar components at UTC midnight. -/
def getStartOfToday (now : JSDate) : JSDate :=
  dateUTC (getUTCFullYear now) (getUTCMonth now) (getUTCDate now)

/-- One row of the ContactViewLimit table: the (userId, date) key and the
count. Timestamps are bookkeeping outside the decision logic and are not
modelled. -/
structure ViewLimitRecord where
  userId : String
  date : JSDate
  count : Int
deriving DecidableEq, Repr

/-- The ContactViewLimit table as a list of rows. -/
abbrev Store : Type := List ViewLimitRecord

/-- prisma.contactViewLimit.findUnique on the (userId, date) unique key:
the first row matching the key. -/
def findUnique : Store → String → JSDate → Option ViewLimitRecord
  | [], _, _ => none
  | r :: rest, u, d =>
      if r.userId = u ∧ r.date = d then some r else findUnique rest u d

/-- The stored count for a key, reading an absent row as zero. -/
def countOf (s : Store) (u : String) (d : JSDate) : Int :=
  match findUnique s u d with
  | some r => r.count
  | none => 0

/-- How many rows of the table carry the given key (the unique constraint
demands this never exceeds one). -/
def countRows (s : Store) (u : String) (d : JSDate) : Nat :=
  (s.filter (fun r => decide (r.userId = u ∧ r.date = d))).length

/-- The storage-level atomic upsert keyed by (userId, date): update the
existing row in place with upd, or append a fresh row with count c0; returns
the resulting row together with the new table. One indivisible storage
step. -/
def upsertStore (u : String) (d : JSDate) (upd : Int → Int) (c0 : Int) :
    Store → ViewLimitRecord × Store
  | [] => (⟨u, d, c0⟩, [⟨u, d, c0⟩])
  | r :: rest =>
      if r.userId = u ∧ r.date = d then
        (⟨r.userId, r.date, upd r.count⟩, ⟨r.userId, r.date, upd r.count⟩ :: rest)
      else
        let step := upsertStore u d upd c0 rest
        (step.1, r :: step.2)

/-- getOrCreateViewLimit as checked in under src/lib/contact-view-limit.ts:
findUnique for (userId, today), then a separate create with count 0 when no
row was found. Sequentially the create succeeds, appending the row. -/
def getOrCreateViewLimit (s : Store) (u : String) (now : JSDate) :
    ViewLimitRecord × Store :=
  let today := getStartOfToday now
  match findUnique s u today with
  | some r => (r, s)
  | none => (⟨u, today, 0⟩, s ++ [⟨u, today, 0⟩])

/-- getOrCreateViewLimit as emitted by setup.sh (lines 623 to 644): a single
atomic upsert with an empty update and a create of count 0. -/
def getOrCreateViewLimitUpsert (s : Store) (u : String) (now : JSDate) :
    ViewLimitRecord × Store :=
  upsertStore u (getStartOfToday now) (fun c => c) 0 s

/-- hasReachedDailyLimit: ensure the row for (userId, today) and compare its
count against DAILY_LIMIT with the JavaScript greater-or-equal. -/
def hasReachedDailyLimit (env : Option String) (s : Store) (u : String)
    (now : JSDate) : Bool × Store :=
  let step := getOrCreateViewLimit s u now
  (jsGe step.1.count (DAILY_LIMIT env), step.2)

/-- incrementViewCount: one atomic upsert that increments the count of the
row for (userId, today) or creates it with count 1. -/
def incrementViewCount (s : Store) (u : String) (now : JSDate) : Store :=
  (upsertStore u (getStartOfToday now) (fun c => c + 1) 1 s).2

/-- n sequential calls of incrementViewCount for the same user under the
same wall clock. -/
def incIter (u : String) (now : JSDate) : Nat → Store → Store
  | 0, s => s
  | n + 1, s => incrementViewCount (incIter u now n s) u now

/-- n sequential calls of getOrCreateViewLimit for the same user under the
same wall clock, keeping only the table. -/
def ensureIter (u : String) (now : JSDate) : Nat → Store → Store
  | 0, s => s
  | n + 1, s => (getOrCreateViewLimit (ensureIter u now n s) u now).2

/-- The record getViewStats returns: used views, remaining views and the
limit. remaining and limit are JavaScript numbers since DAILY_LIMIT may be
NaN. -/
structure ViewStats where
  used : Int
  remaining : JSNum
  limit : JSNum
deriving DecidableEq, Repr

/-- getViewStats: ensure the row for (userId, today), then report used,
remaining = Math.max(0, DAILY_LIMIT - used) and the limit. -/
def getViewStats (env : Option String) (s : Store) (u : String)
    (now : JSDate) : ViewStats × Store :=
  let step := getOrCreateViewLimit s u now
  (⟨step.1.count, jsMax0 (jsSub (DAILY_LIMIT env) step.1.count), DAILY_LIMIT env⟩,
    step.2)

/-- getDailyLimit from src/lib/contact-view-limit.ts. -/
def getDailyLimit (env : Option String) : JSNum := DAILY_LIMIT env

/-- A contact row as far as the rate-limited route reads it: only the id is
consulted by the lookup; the remaining columns play no role in the quota
logic. -/
structure Contact where
  id : String
deriving DecidableEq, Repr

/-- The four outcomes of GET /api/contacts/[id]: 401, 429, 404 and the 200
response carrying the contact. -/
inductive GETResult where
  | unauthorized : GETResult
  | limitReached : GETResult
  | notFound : GETResult
  | ok : Contact → GETResult
deriving DecidableEq, Repr

/-- GET /api/contacts/[id] from src/app/api/contacts/[id]/route.ts: check
auth, check the daily limit, fetch the contact, and only then increment the
view count; returns the response together with the table it leaves
behind. -/
def routeGET (env : Option String) (contacts : List Contact) (s : Store)
    (userId : Option String) (id : String) (now : JSDate) :
    GETResult × Store :=
  match userId with
  | none => (GETResult.unauthorized, s)
  | some u =>
      let check := hasReachedDailyLimit env s u now
      if check.1 then (GETResult.limitReached, check.2)
      else
        match contacts.find? (fun c => c.id == id) with
        | none => (GETResult.notFound, check.2)
        | some c => (GETResult.ok c, incrementViewCount check.2 u now)

/-! ### Fine-grained storage model for the concurrency claim

The checked-in getOrCreateViewLimit issues two separate storage calls
(findUnique, then create). To examine it under concurrent callers we model
each storage call as one atomic step and interleave two callers under an
explicit schedule. The create primitive enforces the unique (userId, date)
constraint of the Prisma schema: creating a key that already exists raises
a unique-constraint violation, exactly as prisma.create does. -/

/-- A storage failure: the unique-constraint (already exists) violation
raised by create on a duplicate key. -/
inductive DBError where
  | uniqueViolation : DBError
deriving DecidableEq, Repr

/-- prisma.contactViewLimit.create with data (userId, date, count 0): one
atomic storage step that appends the row, or raises the unique-constraint
violation when a row with that key already exists. -/
def createRow (s : Store) (u : String) (d : JSDate) :
    Except DBError (ViewLimitRecord × Store) :=
  match findUnique s u d with
  | some _ => Except.error DBError.uniqueViolation
  | none => Except.ok (⟨u, d, 0⟩, s ++ [⟨u, d, 0⟩])

/-- The control state of one in-flight getOrCreateViewLimit call: before the
findUnique, between the findUnique and the conditional create (remembering
what the findUnique observed), or finished with a result. -/
inductive EnsurePC where
  | start : EnsurePC
  | afterFind : Option ViewLimitRecord → EnsurePC
  | done : Except DBError ViewLimitRecord → EnsurePC
deriving Repr

/-- One atomic step of an in-flight getOrCreateViewLimit call for the key
(u, d): the findUnique step records its observation; the second step
returns the observed row, or runs create when nothing was observed. -/
def ensureThreadStep (u : String) (d : JSDate) (s : Store) :
    EnsurePC → EnsurePC × Store
  | EnsurePC.start => (EnsurePC.afterFind (findUnique s u d), s)
  | EnsurePC.afterFind (some r) => (EnsurePC.done (Except.ok r), s)
  | EnsurePC.afterFind none =>
      match createRow s u d with
      | Except.ok step => (EnsurePC.done (Except.ok step.1), step.2)
      | Except.error e => (EnsurePC.done (Except.error e), s)
  | EnsurePC.done r => (EnsurePC.done r, s)

/-- Run two concurrent getOrCreateViewLimit calls for the same key under a
schedule: true steps the first caller, false the second. -/
def runTwoEnsures (u : String) (d : JSDate) :
    List Bool → EnsurePC × EnsurePC × Store → EnsurePC × EnsurePC × Store
  | [], st => st
  | b :: rest, (p1, p2, s) =>
      if b then
        let step := ensureThreadStep u d s p1
        runTwoEnsures u d rest (step.1, p2, step.2)
      else
        let step := ensureThreadStep u d s p2
        runTwoEnsures u d rest (p1, step.1, step.2)

/-- One atomic step of the setup.sh version of getOrCreateViewLimit for the
key (u, d): the whole call is a single storage-level upsert, so a caller is
either not started or finished, and no error can arise. -/
def ensureUpsertStep (u : String) (d : JSDate) (s : Store) :
    Option ViewLimitRecord → Option ViewLimitRecord × Store
  | none =>
      let step := upsertStore u d (fun c => c) 0 s
      (some step.1, step.2)
  | some r => (some r, s)

/-- Run two concurrent upsert-based ensure calls for the same key under a
schedule. -/
def runTwoUpsertEnsures (u : String) (d : JSDate) :
    List Bool → Option ViewLimitRecord × Option ViewLimitRecord × Store →
      Option ViewLimitRecord × Option ViewLimitRecord × Store
  | [], st => st
  | b :: rest, (p1, p2, s) =>
      if b then
        let step := ensureUpsertStep u d s p1
        runTwoUpsertEnsures u d rest (step.1, p2, step.2)
      else
        let step := ensureUpsertStep u d s p2
        runTwoUpsertEnsures u d rest (p1, step.1, step.2)

/-- A fixed concrete wall-clock instant used by concrete evaluations:
2026-10-12 09:30 UTC in a UTC+2 environment. -/
def sampleNow : JSDate := ⟨2026, 9, 12, 9, 30, 0, 0, 120⟩

/-- A later instant of the same UTC calendar day as sampleNow, with a
different time of day and a different local timezone offset. -/
def sampleNowLate : JSDate := ⟨2026, 9, 12, 23, 59, 59, 999, -300⟩

/-- An instant on the next UTC calendar day after sampleNow. -/
def sampleNextDay : JSDate := ⟨2026, 9, 13, 9, 30, 0, 0, 120⟩

/-! ### Lemmas about the storage primitives -/

theorem findUnique_key {s : Store} {u : String} {d : JSDate}
    {r : ViewLimitRecord} (h : findUnique s u d = some r) :
    r.userId = u ∧ r.date = d := by
  induction s with
  | nil => simp [findUnique] at h
  | cons x rest ih =>
      by_cases hx : x.userId = u ∧ x.date = d
      · simp only [findUnique, if_pos hx, Option.some.injEq] at h
        rw [← h]
        exact hx
      · simp only [findUnique, if_neg hx] at h
        exact ih h

theorem findUnique_append (s t : Store) (u : String) (d : JSDate) :
    findUnique (s ++ t) u d =
      match findUnique s u d with
      | some r => some r
      | none => findUnique t u d := by
  induction s with
  | nil => simp [findUnique]
  | cons x rest ih =>
      by_cases hx : x.userId = u ∧ x.date = d
      · simp [findUnique, if_pos hx]
      · simpa [findUnique, if_neg hx] using ih

theorem findUnique_eq_none_iff_countRows (s : Store) (u : String)
    (d : JSDate) : findUnique s u d = none ↔ countRows s u d = 0 := by
  induction s with
  | nil => simp [findUnique, countRows]
  | cons x rest ih =>
      by_cases hx : x.userId = u ∧ x.date = d
      · simp [findUnique, countRows, List.filter, if_pos hx, hx]
      · simpa [findUnique, countRows, List.filter, if_neg hx, hx] using ih

theorem countRows_append (s t : Store) (u : String) (d : JSDate) :
    countRows (s ++ t) u d = countRows s u d + countRows t u d := by
  simp [countRows, List.filter_append]

theorem upsertStore_fst (u : String) (d : JSDate) (upd : Int → Int)
    (c0 : Int) (s : Store) :
    (upsertStore u d upd c0 s).1 =
      match findUnique s u d with
      | some r => ⟨u, d, upd r.count⟩
      | none => ⟨u, d, c0⟩ := by
  induction s with
  | nil => simp [upsertStore, findUnique]
  | cons x rest ih =>
      by_cases hx : x.userId = u ∧ x.date = d
      · simp [upsertStore, findUnique, if_pos hx, hx.1, hx.2]
      · simpa [upsertStore, findUnique, if_neg hx] using ih

theorem findUnique_upsertStore_self (u : String) (d : JSDate)
    (upd : Int → Int) (c0 : Int) (s : Store) :
    findUnique (upsertStore u d upd c0 s).2 u d =
      some (upsertStore u d upd c0 s).1 := by
  induction s with
  | nil => simp [upsertStore, findUnique]
  | cons x rest ih =>
      by_cases hx : x.userId = u ∧ x.date = d
      · simp [upsertStore, findUnique, if_pos hx, hx.1, hx.2]
      · simpa [upsertStore, findUnique, if_neg hx] using ih

theorem findUnique_upsertStore_other (u : String) (d : JSDate)
    (upd : Int → Int) (c0 : Int) (s : Store) (u2 : String) (d2 : JSDate)
    (hkey : ¬(u2 = u ∧ d2 = d)) :
    findUnique (upsertStore u d upd c0 s).2 u2 d2 = findUnique s u2 d2 := by
  induction s with
  | nil =>
      have hguard : ¬((⟨u, d, c0⟩ : ViewLimitRecord).userId = u2 ∧
          (⟨u, d, c0⟩ : ViewLimitRecord).date = d2) := by
        intro hg
        exact hkey ⟨hg.1.symm, hg.2.symm⟩
      simp [upsertStore, findUnique, if_neg hguard]
  | cons x rest ih =>
      by_cases hx : x.userId = u ∧ x.date = d
      · have hnew : ¬((⟨x.userId, x.date, upd x.count⟩ : ViewLimitRecord).userId = u2 ∧
            (⟨x.userId, x.date, upd x.count⟩ : ViewLimitRecord).date = d2) := by
          intro hguard
          exact hkey ⟨(hguard.1.symm.trans hx.1), (hguard.2.symm.trans hx.2)⟩
        have hxold : ¬(x.userId = u2 ∧ x.date = d2) := by
          intro hguard
          exact hkey ⟨(hguard.1.symm.trans hx.1), (hguard.2.symm.trans hx.2)⟩
        simp [upsertStore, findUnique, if_pos hx, if_neg hnew, if_neg hxold]
      · by_cases hx2 : x.userId = u2 ∧ x.date = d2
        · simp [upsertStore, findUnique, if_neg hx, if_pos hx2]
        · simpa [upsertStore, findUnique, if_neg hx, if_neg hx2] using ih

theorem countRows_cons (x : ViewLimitRecord) (l : Store) (u : String)
    (d : JSDate) :
    countRows (x :: l) u d =
      (if x.userId = u ∧ x.date = d then 1 else 0) + countRows l u d := by
  by_cases hx : x.userId = u ∧ x.date = d <;>
    simp [countRows, List.filter_cons, hx, Nat.add_comm]

theorem countRows_upsertStore_absent (u : String) (d : JSDate)
    (upd : Int → Int) (c0 : Int) (s : Store)
    (h : findUnique s u d = none) :
    countRows (upsertStore u d upd c0 s).2 u d = countRows s u d + 1 := by
  induction s with
  | nil => simp [upsertStore, countRows, List.filter]
  | cons x rest ih =>
      by_cases hx : x.userId = u ∧ x.date = d
      · simp [findUnique, if_pos hx] at h
      · simp only [findUnique, if_neg hx] at h
        simp only [upsertStore, if_neg hx]
        rw [countRows_cons, countRows_cons, ih h]
        omega

theorem getOrCreateViewLimit_fst_count (s : Store) (u : String)
    (now : JSDate) :
    (getOrCreateViewLimit s u now).1.count =
      countOf s u (getStartOfToday now) := by
  simp only [getOrCreateViewLimit, countOf]
  cases hfu : findUnique s u (getStartOfToday now) <;> simp [hfu]

theorem getOrCreateViewLimit_fst_key (s : Store) (u : String)
    (now : JSDate) :
    (getOrCreateViewLimit s u now).1.userId = u ∧
      (getOrCreateViewLimit s u now).1.date = getStartOfToday now := by
  simp only [getOrCreateViewLimit]
  cases hfu : findUnique s u (getStartOfToday now) with
  | some r => simpa using findUnique_key hfu
  | none => simp

theorem countOf_getOrCreateViewLimit (s : Store) (u : String) (now : JSDate)
    (u2 : String) (d2 : JSDate) :
    countOf (getOrCreateViewLimit s u now).2 u2 d2 = countOf s u2 d2 := by
  simp only [getOrCreateViewLimit]
  cases hfu : findUnique s u (getStartOfToday now) with
  | some r => simp
  | none =>
      simp only [countOf]
      rw [findUnique_append]
      cases hfu2 : findUnique s u2 d2 with
      | some r => simp
      | none =>
          by_cases hg : (⟨u, getStartOfToday now, 0⟩ : ViewLimitRecord).userId = u2 ∧
              (⟨u, getStartOfToday now, 0⟩ : ViewLimitRecord).date = d2
          · simp [findUnique, if_pos hg]
          · simp [findUnique, if_neg hg]

theorem getOrCreateViewLimit_idem (s : Store) (u : String) (now : JSDate) :
    getOrCreateViewLimit (getOrCreateViewLimit s u now).2 u now =
      getOrCreateViewLimit s u now := by
  cases hfu : findUnique s u (getStartOfToday now) with
  | some r => simp [getOrCreateViewLimit, hfu]
  | none =>
      have happ : findUnique (s ++ [⟨u, getStartOfToday now, 0⟩]) u
          (getStartOfToday now) = some ⟨u, getStartOfToday now, 0⟩ := by
        rw [findUnique_append, hfu]
        simp [findUnique]
      simp [getOrCreateViewLimit, hfu, happ]

theorem countOf_incrementViewCount (s : Store) (u : String) (now : JSDate) :
    countOf (incrementViewCount s u now) u (getStartOfToday now) =
      countOf s u (getStartOfToday now) + 1 := by
  simp only [incrementViewCount, countOf]
  rw [findUnique_upsertStore_self, upsertStore_fst]
  cases hfu : findUnique s u (getStartOfToday now) <;> simp [hfu]

theorem countRows_upsertStore_found (u : String) (d : JSDate)
    (upd : Int → Int) (c0 : Int) (s : Store) {r : ViewLimitRecord}
    (h : findUnique s u d = some r) :
    countRows (upsertStore u d upd c0 s).2 u d = countRows s u d := by
  induction s with
  | nil => simp [findUnique] at h
  | cons x rest ih =>
      by_cases hx : x.userId = u ∧ x.date = d
      · simp only [upsertStore, if_pos hx]
        rw [countRows_cons, countRows_cons]
      · simp only [findUnique, if_neg hx] at h
        simp only [upsertStore, if_neg hx]
        rw [countRows_cons, countRows_cons, ih h]


theorem upsertStore_id (u : String) (d : JSDate) (s : Store) :
    upsertStore u d (fun c => c) 0 s =
      match findUnique s u d with
      | some r => (r, s)
      | none => (⟨u, d, 0⟩, s ++ [⟨u, d, 0⟩]) := by
  induction s with
  | nil => simp [upsertStore, findUnique]
  | cons x rest ih =>
      by_cases hx : x.userId = u ∧ x.date = d
      · simp [upsertStore, findUnique, if_pos hx]
      · simp only [upsertStore, if_neg hx, findUnique]
        rw [ih]
        cases hfu : findUnique rest u d <;> simp [hfu]

/-! ### Claim theorems -/

/-- Claim C2: one incrementViewCount call raises the stored count of the
key (u, today) by exactly one, creating the row at count 1 when it is
absent, and any sequence of M increments moves the count from c to exactly
c + M. -/
theorem c2_increment_exact (s : Store) (u : String) (now : JSDate) :
    (∀ M : Nat, countOf (incIter u now M s) u (getStartOfToday now) =
      countOf s u (getStartOfToday now) + M) ∧
    (findUnique s u (getStartOfToday now) = none →
      findUnique (incrementViewCount s u now) u (getStartOfToday now) =
        some ⟨u, getStartOfToday now, 1⟩) := by
  constructor
  · intro M
    induction M with
    | zero => simp [incIter]
    | succ n ihn =>
        simp only [incIter]
        rw [countOf_incrementViewCount, ihn]
        push_cast
        ring
  · intro h
    simp only [incrementViewCount]
    rw [findUnique_upsertStore_self, upsertStore_fst, h]

theorem c2_increment_exact_witness :
    countOf (incIter "user_1" sampleNow 3 []) "user_1"
        (getStartOfToday sampleNow) =
      countOf ([] : Store) "user_1" (getStartOfToday sampleNow) + 3 ∧
    findUnique (incrementViewCount [] "user_1" sampleNow) "user_1"
        (getStartOfToday sampleNow) =
      some ⟨"user_1", getStartOfToday sampleNow, 1⟩ :=
  ⟨(c2_increment_exact [] "user_1" sampleNow).1 3,
   (c2_increment_exact [] "user_1" sampleNow).2 rfl⟩

/-- Claim C3: hasReachedDailyLimit answers true exactly when the stored
count of (u, today) is at least the configured daily limit; with the
default limit 50 this is false at count 49 and true from count 50 on. -/
theorem c3_limit_boundary (env : Option String) (L : Int) (s : Store)
    (u : String) (now : JSDate) (hL : DAILY_LIMIT env = JSNum.int L) :
    (hasReachedDailyLimit env s u now).1 =
      decide (L ≤ countOf s u (getStartOfToday now)) := by
  simp only [hasReachedDailyLimit, hL, jsGe]
  rw [getOrCreateViewLimit_fst_count]

theorem c3_limit_boundary_witness :
    (hasReachedDailyLimit none
        [⟨"user_1", getStartOfToday sampleNow, 49⟩] "user_1" sampleNow).1 =
      decide ((50 : Int) ≤
        countOf [⟨"user_1", getStartOfToday sampleNow, 49⟩] "user_1"
          (getStartOfToday sampleNow)) :=
  c3_limit_boundary none 50 [⟨"user_1", getStartOfToday sampleNow, 49⟩]
    "user_1" sampleNow (by decide)

/-- Claim C4: when the daily limit check passes but the contact lookup
finds nothing, GET /api/contacts/[id] ends in NOT_FOUND without an
increment: the stored count of every key, in particular (u, today), is the
same after the request as before. -/
theorem c4_no_increment_on_failed_fetch (env : Option String)
    (contacts : List Contact) (s : Store) (u : String) (id : String)
    (now : JSDate)
    (hcheck : (hasReachedDailyLimit env s u now).1 = false)
    (hmiss : contacts.find? (fun c => c.id == id) = none) :
    (routeGET env contacts s (some u) id now).1 = GETResult.notFound ∧
    ∀ u2 d2, countOf (routeGET env contacts s (some u) id now).2 u2 d2 =
      countOf s u2 d2 := by
  have hroute : routeGET env contacts s (some u) id now =
      (GETResult.notFound, (hasReachedDailyLimit env s u now).2) := by
    simp [routeGET, hcheck, hmiss]
  refine ⟨by rw [hroute], fun u2 d2 => ?_⟩
  rw [hroute]
  simp only [hasReachedDailyLimit]
  exact countOf_getOrCreateViewLimit s u now u2 d2

theorem c4_no_increment_on_failed_fetch_witness :
    (routeGET none [] [] (some "user_1") "c1" sampleNow).1 =
      GETResult.notFound ∧
    ∀ u2 d2, countOf (routeGET none [] [] (some "user_1") "c1" sampleNow).2
      u2 d2 = countOf ([] : Store) u2 d2 :=
  c4_no_increment_on_failed_fetch none [] [] "user_1" "c1" sampleNow
    (by decide) rfl

/-- Claim C5: getViewStats reports used equal to the stored count, limit
equal to the daily limit, and remaining equal to max 0 (limit - used),
which is never negative, also when used exceeds the limit. -/
theorem c5_view_stats (env : Option String) (L : Int) (s : Store)
    (u : String) (now : JSDate) (hL : DAILY_LIMIT env = JSNum.int L) :
    (getViewStats env s u now).1.used = countOf s u (getStartOfToday now) ∧
    (getViewStats env s u now).1.limit = JSNum.int L ∧
    (getViewStats env s u now).1.remaining =
      JSNum.int (max 0 (L - countOf s u (getStartOfToday now))) ∧
    0 ≤ max 0 (L - countOf s u (getStartOfToday now)) := by
  refine ⟨?_, ?_, ?_, le_max_left 0 _⟩
  · simp only [getViewStats]
    exact getOrCreateViewLimit_fst_count s u now
  · simp [getViewStats, hL]
  · simp only [getViewStats, hL, jsSub, jsMax0]
    rw [getOrCreateViewLimit_fst_count]

theorem c5_view_stats_witness :
    (getViewStats none [⟨"user_1", getStartOfToday sampleNow, 60⟩] "user_1"
        sampleNow).1.used =
      countOf [⟨"user_1", getStartOfToday sampleNow, 60⟩] "user_1"
        (getStartOfToday sampleNow) ∧
    (getViewStats none [⟨"user_1", getStartOfToday sampleNow, 60⟩] "user_1"
        sampleNow).1.limit = JSNum.int 50 ∧
    (getViewStats none [⟨"user_1", getStartOfToday sampleNow, 60⟩] "user_1"
        sampleNow).1.remaining =
      JSNum.int (max 0 (50 - countOf
        [⟨"user_1", getStartOfToday sampleNow, 60⟩] "user_1"
        (getStartOfToday sampleNow))) ∧
    0 ≤ max 0 (50 - countOf [⟨"user_1", getStartOfToday sampleNow, 60⟩]
        "user_1" (getStartOfToday sampleNow)) :=
  c5_view_stats none 50 [⟨"user_1", getStartOfToday sampleNow, 60⟩]
    "user_1" sampleNow (by decide)

/-- Claim C6: idempotent creation; starting from a table holding no row for
(u, today), every number of getOrCreateViewLimit calls yields the
count-zero record, the table never holds more than one row for the key,
and from the first call on the table no longer changes. -/
theorem c6_idempotent_creation (s : Store) (u : String) (now : JSDate)
    (h0 : countRows s u (getStartOfToday now) = 0) :
    (∀ n, 1 ≤ n →
      ensureIter u now n s = (getOrCreateViewLimit s u now).2) ∧
    (∀ n, (getOrCreateViewLimit (ensureIter u now n s) u now).1.count = 0) ∧
    (∀ n, countRows (ensureIter u now n s) u (getStartOfToday now) ≤ 1) := by
  have hfu : findUnique s u (getStartOfToday now) = none :=
    (findUnique_eq_none_iff_countRows s u (getStartOfToday now)).mpr h0
  have hens : getOrCreateViewLimit s u now =
      (⟨u, getStartOfToday now, 0⟩,
        s ++ [⟨u, getStartOfToday now, 0⟩]) := by
    simp [getOrCreateViewLimit, hfu]
  have hstep : ∀ m, ensureIter u now (m + 1) s =
      (getOrCreateViewLimit s u now).2 := by
    intro m
    induction m with
    | zero => simp [ensureIter]
    | succ k ihk =>
        show (getOrCreateViewLimit (ensureIter u now (k + 1) s) u now).2 =
          (getOrCreateViewLimit s u now).2
        rw [ihk, getOrCreateViewLimit_idem]
  refine ⟨?_, ?_, ?_⟩
  · intro n hn
    cases n with
    | zero => omega
    | succ m => exact hstep m
  · intro n
    cases n with
    | zero =>
        show (getOrCreateViewLimit s u now).1.count = 0
        rw [hens]
    | succ m =>
        rw [hstep m, getOrCreateViewLimit_idem, hens]
  · intro n
    cases n with
    | zero =>
        show countRows s u (getStartOfToday now) ≤ 1
        omega
    | succ m =>
        rw [hstep m, hens, countRows_append, h0]
        simp [countRows, List.filter]

theorem c6_idempotent_creation_witness :
    (∀ n, 1 ≤ n → ensureIter "user_1" sampleNow n [] =
      (getOrCreateViewLimit [] "user_1" sampleNow).2) ∧
    (∀ n, (getOrCreateViewLimit (ensureIter "user_1" sampleNow n [])
      "user_1" sampleNow).1.count = 0) ∧
    (∀ n, countRows (ensureIter "user_1" sampleNow n []) "user_1"
      (getStartOfToday sampleNow) ≤ 1) :=
  c6_idempotent_creation [] "user_1" sampleNow rfl

/-- Claim C7: the day key built by getStartOfToday is the UTC calendar date
of the wall clock with every time-of-day component zero, it does not depend
on the time of day or the local timezone offset, and getOrCreateViewLimit
keys the record it yields by exactly this derived value. -/
theorem c7_utc_day_key (now now2 : JSDate) (hy : now.year = now2.year)
    (hm : now.month = now2.month) (hd : now.day = now2.day) :
    getStartOfToday now = getStartOfToday now2 ∧
    getStartOfToday now =
      dateUTC (getUTCFullYear now) (getUTCMonth now) (getUTCDate now) ∧
    (getStartOfToday now).hour = 0 ∧
    (getStartOfToday now).minute = 0 ∧
    (getStartOfToday now).second = 0 ∧
    (getStartOfToday now).ms = 0 ∧
    (getStartOfToday now).tzOffsetMinutes = 0 ∧
    (getStartOfToday now).year = getUTCFullYear now ∧
    (getStartOfToday now).month = getUTCMonth now ∧
    (getStartOfToday now).day = getUTCDate now ∧
    ∀ s u, (getOrCreateViewLimit s u now).1.date = getStartOfToday now := by
  refine ⟨?_, rfl, rfl, rfl, rfl, rfl, rfl, rfl, rfl, rfl,
    fun s u => (getOrCreateViewLimit_fst_key s u now).2⟩
  simp [getStartOfToday, dateUTC, getUTCFullYear, getUTCMonth, getUTCDate,
    hy, hm, hd]

theorem c7_utc_day_key_witness :
    getStartOfToday sampleNow = getStartOfToday sampleNowLate :=
  (c7_utc_day_key sampleNow sampleNowLate rfl rfl rfl).1

/-- Claim C8: day isolation; incrementViewCount for u under the current day
changes at most the row keyed (u, today) and leaves the row of every other
key, in particular the same user under any other day, untouched. -/
theorem c8_day_isolation (s : Store) (u : String) (now : JSDate)
    (u2 : String) (d2 : JSDate)
    (hkey : ¬(u2 = u ∧ d2 = getStartOfToday now)) :
    findUnique (incrementViewCount s u now) u2 d2 = findUnique s u2 d2 := by
  simp only [incrementViewCount]
  exact findUnique_upsertStore_other u (getStartOfToday now)
    (fun c => c + 1) 1 s u2 d2 hkey

theorem c8_day_isolation_witness :
    findUnique (incrementViewCount
        [⟨"user_1", getStartOfToday sampleNextDay, 7⟩] "user_1" sampleNow)
        "user_1" (getStartOfToday sampleNextDay) =
      findUnique [⟨"user_1", getStartOfToday sampleNextDay, 7⟩] "user_1"
        (getStartOfToday sampleNextDay) :=
  c8_day_isolation [⟨"user_1", getStartOfToday sampleNextDay, 7⟩] "user_1"
    sampleNow "user_1" (getStartOfToday sampleNextDay) (by decide)

/-- Claim C9: the checked-in findUnique-then-create version and the setup
script single-upsert version of getOrCreateViewLimit agree as sequential
state transformers: from every starting table, user and wall clock they
return the same record and leave the same table. -/
theorem c9_two_versions_agree (s : Store) (u : String) (now : JSDate) :
    getOrCreateViewLimit s u now = getOrCreateViewLimitUpsert s u now := by
  simp only [getOrCreateViewLimit, getOrCreateViewLimitUpsert]
  rw [upsertStore_id]

/-- Claim C1: the checked-in getOrCreateViewLimit is a findUnique followed
by a separate create, not a single atomic upsert; when two concurrent
callers race on the same key and both read before either writes, the
second create hits the unique-constraint (already exists) error instead of
returning the row, while the setup script single-step upsert version
succeeds for both callers under either order and leaves exactly one
count-zero row. -/
theorem c1_race_unique_violation :
    (runTwoEnsures "user_1" (getStartOfToday sampleNow)
        [true, false, true, false]
        (EnsurePC.start, EnsurePC.start, ([] : Store))).2.1 =
      EnsurePC.done (Except.error DBError.uniqueViolation) ∧
    (runTwoEnsures "user_1" (getStartOfToday sampleNow)
        [true, false, true, false]
        (EnsurePC.start, EnsurePC.start, ([] : Store))).2.2 =
      [⟨"user_1", getStartOfToday sampleNow, 0⟩] ∧
    (runTwoUpsertEnsures "user_1" (getStartOfToday sampleNow) [true, false]
        (none, none, ([] : Store))).1 =
      some ⟨"user_1", getStartOfToday sampleNow, 0⟩ ∧
    (runTwoUpsertEnsures "user_1" (getStartOfToday sampleNow) [true, false]
        (none, none, ([] : Store))).2.1 =
      some ⟨"user_1", getStartOfToday sampleNow, 0⟩ ∧
    (runTwoUpsertEnsures "user_1" (getStartOfToday sampleNow) [true, false]
        (none, none, ([] : Store))).2.2 =
      [⟨"user_1", getStartOfToday sampleNow, 0⟩] ∧
    (runTwoUpsertEnsures "user_1" (getStartOfToday sampleNow) [false, true]
        (none, none, ([] : Store))).2.2 =
      [⟨"user_1", getStartOfToday sampleNow, 0⟩] :=
  ⟨rfl, rfl, rfl, rfl, rfl, rfl⟩

/-- Claim C10 counterexample: the empty string is a set value that does not
parse as an integer, yet DAILY_LIMIT is 50 and not NaN, because the
JavaScript or-else treats the empty string as falsy and substitutes the
default before parseInt runs. -/
theorem c10_empty_string_counterexample :
    parseIntJS "" = JSNum.nan ∧
    DAILY_LIMIT (some "") = JSNum.int 50 ∧
    ¬ DAILY_LIMIT (some "") = JSNum.nan := by
  refine ⟨rfl, rfl, by decide⟩

/-- Claim C10 as amended: when the variable holds a non-empty string that
does not parse as an integer, DAILY_LIMIT is NaN and hasReachedDailyLimit
is false for every table, user and wall clock, so the quota is silently
unenforced; when the variable is absent or holds the empty string, the
limit defaults to 50. -/
theorem c10_nan_limit_unenforced (s2 : String) (hne : s2 ≠ "")
    (hnan : parseIntJS s2 = JSNum.nan) :
    DAILY_LIMIT (some s2) = JSNum.nan ∧
    (∀ st u now, (hasReachedDailyLimit (some s2) st u now).1 = false) ∧
    DAILY_LIMIT none = JSNum.int 50 ∧
    DAILY_LIMIT (some "") = JSNum.int 50 := by
  have hdl : DAILY_LIMIT (some s2) = JSNum.nan := by
    simp [DAILY_LIMIT, jsOrDefault, hne, hnan]
  refine ⟨hdl, fun st u now => ?_, rfl, rfl⟩
  simp [hasReachedDailyLimit, hdl, jsGe]

theorem c10_nan_limit_unenforced_witness :
    DAILY_LIMIT (some "abc") = JSNum.nan ∧
    (hasReachedDailyLimit (some "abc")
        [⟨"user_1", getStartOfToday sampleNow, 1000⟩] "user_1"
        sampleNow).1 = false :=
  ⟨(c10_nan_limit_unenforced "abc" (by decide) rfl).1,
   (c10_nan_limit_unenforced "abc" (by decide) rfl).2.1
     [⟨"user_1", getStartOfToday sampleNow, 1000⟩] "user_1" sampleNow⟩
